import Mathlib

/-!
Shallow embedding of the task/future object model in `src/runtime/future.rs`.

The source fragment is the declaration layer only: the enum `FutureData`
(Pending / Ready / Error), the type alias `FutureError = Box<dyn Any + Send>`,
and the struct `FutureTask { task, ref_count, data }`.  The lifecycle
operations (`create`, `clone_handle`, `drop_handle`, `poll` / `advance` /
`peek`) are specified in the design document but their code is not part of the
fragment; they are modelled from the spec below, each marked as such.
-/

namespace ZapFut

/-- A closed universe of payload types, used to model Rust's `dyn Any`
type-erased values: a `Box<dyn Any>` is a value of some dynamic type together
with its type tag, and downcasting succeeds exactly when the tags agree. -/
inductive Ty where
  | nat
  | int
  | str
  | bool
deriving DecidableEq

/-- Interpretation of the closed type universe. -/
def Ty.denote : Ty → Type
  | .nat => Nat
  | .int => Int
  | .str => String
  | .bool => Bool

/-- A type-erased value: a dynamic type tag paired with a value of that type.
This models `Box<dyn Any + Send + 'static>`. -/
structure AnyVal where
  ty : Ty
  val : ty.denote

/-- Downcasting a type-erased value to an expected type, as
`Box<dyn Any>::downcast` does: succeeds iff the stored tag equals the
expected type, returning the original value. -/
def downcast (t : Ty) (a : AnyVal) : Option t.denote :=
  if h : a.ty = t then some (cast (congrArg Ty.denote h) a.val) else none

/-- `type FutureError = Box<dyn Any + Send + 'static>` (future.rs line 8). -/
abbrev FutureError := AnyVal

/-- The `FutureData` enum of future.rs lines 10-15: the Completion Cell.
`F` is the computation type, `Out` its output type (`F::Output`).  As a Rust
enum it holds exactly one variant at a time. -/
inductive FutureData (F : Type) (Out : Type) where
  | Pending (f : F)
  | Ready (out : Out)
  | Error (e : FutureError)

/-- Modelled from the spec: the computation wrapped by a Task.  The spec's
`advance()` either leaves the cell Pending (the computation suspends after
registering a wake-up) or transitions it to `Ready(output)` / `Failed(error)`.
A computation is modelled by the number of times it still suspends before
delivering its result, and the result itself (an output or a failure). -/
structure Computation (Out : Type) where
  pendingSteps : Nat
  result : Sum Out FutureError

/-- The `FutureTask` struct of future.rs lines 17-22.  The `task : Task`
field comes from `super::Task`, which is not part of the fragment; the spec
gives a Task a process-unique `id`, so the field is modelled as that
identifier.  `ref_count` is the `AtomicUsize` handle counter (modelled as a
Nat; the sequential embedding makes every counter update atomic). -/
structure FutureTask (F : Type) (Out : Type) where
  task : Nat
  ref_count : Nat
  data : FutureData F Out

/-- A Task object whose computation is the spec-modelled `Computation`. -/
abbrev TaskObj (Out : Type) := FutureTask (Computation Out) Out

/-- The state tag of the Completion Cell, as observed by `peek`. -/
inductive Tag where
  | Pending
  | Ready
  | Failed
deriving DecidableEq

/-- The tag of a `FutureData` value. -/
def FutureData.tag {F Out : Type} : FutureData F Out → Tag
  | .Pending _ => Tag.Pending
  | .Ready _ => Tag.Ready
  | .Error _ => Tag.Failed

/-- What one `poll` call returns to its caller: the observed tag and, if
terminal, the payload. -/
inductive PollResult (Out : Type) where
  | Pending
  | Ready (out : Out)
  | Failed (e : FutureError)

/-- The tag of a `PollResult`. -/
def PollResult.tag {Out : Type} : PollResult Out → Tag
  | .Pending => Tag.Pending
  | .Ready _ => Tag.Ready
  | .Failed _ => Tag.Failed

/-- Modelled from the spec (§4.2): `create(computation)` returns a new Task
with `ref_count = 1` and state `Pending(computation)`. -/
def create {Out : Type} (c : Computation Out) (id : Nat) : TaskObj Out :=
  { task := id, ref_count := 1, data := FutureData.Pending c }

/-- Modelled from the spec (§4.2): `clone_handle` increments `ref_count` and
returns a handle aliasing the same Task. -/
def clone_handle {Out : Type} (t : TaskObj Out) : TaskObj Out :=
  { t with ref_count := t.ref_count + 1 }

/-- The outcome of one `drop_handle` call. `alive` carries the surviving Task;
`destroyed` carries the Completion Cell payload that is released (its
destructor runs) as the last handle drops; `fault` is the loud failure
(abort) on dropping a handle of a Task whose count is already zero. -/
inductive DropOutcome (Out : Type) where
  | alive (t : TaskObj Out)
  | destroyed (dropped : FutureData (Computation Out) Out)
  | fault

/-- Modelled from the spec (§4.2): `drop_handle` decrements `ref_count`; the
decrementer that reaches zero releases the Completion Cell payload and frees
the Task; decrementing a count that is already zero is a double free and
fails loudly rather than continuing. -/
def drop_handle {Out : Type} (t : TaskObj Out) : DropOutcome Out :=
  if t.ref_count = 0 then DropOutcome.fault
  else if t.ref_count = 1 then DropOutcome.destroyed t.data
  else DropOutcome.alive { t with ref_count := t.ref_count - 1 }

/-- Modelled from the spec (§4.1): `advance()` drives a Pending computation
one step: it either stays Pending (one fewer suspension remaining) or
transitions to `Ready(output)` / `Error(failure)`.  On a terminal cell it is
a no-op (the terminal policy of §4.2: re-poll is an idempotent re-read). -/
def advance {Out : Type} (d : FutureData (Computation Out) Out) :
    FutureData (Computation Out) Out :=
  match d with
  | FutureData.Pending c =>
    match c.pendingSteps with
    | 0 =>
      match c.result with
      | Sum.inl out => FutureData.Ready out
      | Sum.inr e => FutureData.Error e
    | n + 1 => FutureData.Pending { c with pendingSteps := n }
  | FutureData.Ready o => FutureData.Ready o
  | FutureData.Error e => FutureData.Error e

/-- Modelled from the spec (§4.1): `peek()` returns the current tag and, if
terminal, the payload, without mutating state. -/
def peek {Out : Type} (d : FutureData (Computation Out) Out) : PollResult Out :=
  match d with
  | FutureData.Pending _ => PollResult.Pending
  | FutureData.Ready o => PollResult.Ready o
  | FutureData.Error e => PollResult.Failed e

/-- Modelled from the spec (§4.2): `poll` invokes `advance()` on the cell and
returns the observed tag/payload via `peek()` semantics.  It returns the
updated Task together with the observation; failures are returned as data,
never thrown past the Task boundary. -/
def poll {Out : Type} (t : TaskObj Out) : TaskObj Out × PollResult Out :=
  ({ t with data := advance t.data }, peek (advance t.data))

/-- The Task after `n` successive `poll` calls. -/
def pollIter {Out : Type} (t : TaskObj Out) : Nat → TaskObj Out
  | 0 => t
  | n + 1 => (poll (pollIter t n)).1

/-- The tag observed by the `(i+1)`-th `poll` call on a Task. -/
def observeTag {Out : Type} (t : TaskObj Out) (i : Nat) : Tag :=
  (poll (pollIter t i)).2.tag

/-- A handle-lifecycle operation: `clone_handle` or `drop_handle`. -/
inductive HandleOp where
  | clone
  | drop
deriving DecidableEq

/-- Number of `clone_handle` calls in a list of handle operations. -/
def numClones : List HandleOp → Nat
  | [] => 0
  | HandleOp.clone :: l => numClones l + 1
  | HandleOp.drop :: l => numClones l

/-- Number of `drop_handle` calls in a list of handle operations. -/
def numDrops : List HandleOp → Nat
  | [] => 0
  | HandleOp.clone :: l => numDrops l
  | HandleOp.drop :: l => numDrops l + 1

/-- The lifecycle state of a Task object: still live, destroyed (the payload
that was released is recorded), or faulted on lifecycle misuse. -/
inductive RunState (Out : Type) where
  | live (t : TaskObj Out)
  | dead (dropped : FutureData (Computation Out) Out)
  | faulted

/-- One handle operation applied to a Task's lifecycle state.  Operating on a
destroyed or faulted Task is a use of a dangling handle: a fault. -/
def stepOp {Out : Type} (s : RunState Out) (op : HandleOp) : RunState Out :=
  match s with
  | RunState.live t =>
    match op with
    | HandleOp.clone => RunState.live (clone_handle t)
    | HandleOp.drop =>
      match drop_handle t with
      | DropOutcome.alive t2 => RunState.live t2
      | DropOutcome.destroyed d => RunState.dead d
      | DropOutcome.fault => RunState.faulted
  | RunState.dead _ => RunState.faulted
  | RunState.faulted => RunState.faulted

/-- Running a sequence of handle operations on a Task lifecycle state. -/
def run {Out : Type} (s : RunState Out) (ops : List HandleOp) : RunState Out :=
  ops.foldl stepOp s

/-! Helper lemmas. -/

/-- The tag `peek` reports is the cell's own tag. -/
theorem peek_tag {Out : Type} (d : FutureData (Computation Out) Out) :
    (peek d).tag = d.tag := by
  cases d <;> rfl

/-- `advance` is a no-op on a terminal cell. -/
theorem advance_terminal {Out : Type} (d : FutureData (Computation Out) Out)
    (h : d.tag ≠ Tag.Pending) : advance d = d := by
  cases d with
  | Pending c => exact absurd rfl h
  | Ready o => rfl
  | Error e => rfl

/-- `poll` on a Task in a terminal state leaves it unchanged and re-reads the
stored result. -/
theorem poll_of_terminal {Out : Type} (t : TaskObj Out)
    (h : t.data.tag ≠ Tag.Pending) : poll t = (t, peek t.data) := by
  show ({ t with data := advance t.data }, peek (advance t.data)) = (t, peek t.data)
  rw [advance_terminal t.data h]

/-- Iterating `poll` from a terminal state stays put. -/
theorem pollIter_of_terminal {Out : Type} (t : TaskObj Out)
    (h : t.data.tag ≠ Tag.Pending) : ∀ n, pollIter t n = t := by
  intro n
  induction n with
  | zero => rfl
  | succ n ih =>
    show (poll (pollIter t n)).1 = t
    rw [ih, poll_of_terminal t h]

/-- Splitting an iterated poll. -/
theorem pollIter_add {Out : Type} (t : TaskObj Out) (a : Nat) :
    ∀ b, pollIter t (a + b) = pollIter (pollIter t a) b := by
  intro b
  induction b with
  | zero => rfl
  | succ b ih =>
    show (poll (pollIter t (a + b))).1 = (poll (pollIter (pollIter t a) b)).1
    rw [ih]

/-- The tag observed by a poll is the tag of the cell just after it. -/
theorem observeTag_eq {Out : Type} (t : TaskObj Out) (i : Nat) :
    observeTag t i = (pollIter t (i + 1)).data.tag := by
  show (poll (pollIter t i)).2.tag = _
  exact peek_tag (advance (pollIter t i).data)

/-- Once a poll observes a terminal tag, every later poll observes the same
tag (the terminal states are absorbing). -/
theorem observeTag_stable {Out : Type} (t : TaskObj Out) (i j : Nat)
    (hij : i ≤ j) (h : observeTag t i ≠ Tag.Pending) :
    observeTag t j = observeTag t i := by
  have hterm : (pollIter t (i + 1)).data.tag ≠ Tag.Pending := by
    rw [observeTag_eq] at h; exact h
  have hj : j + 1 = (i + 1) + (j - i) := by omega
  rw [observeTag_eq, observeTag_eq, hj, pollIter_add,
    pollIter_of_terminal (pollIter t (i + 1)) hterm]

/-! Claim theorems. -/

/-- Claim C1: a Task's state tag is Pending at creation, and across any
sequence of polls the observed tag sequence is some Pendings optionally
followed by one terminal tag (Ready or Failed) that then repeats forever:
once a poll observes a non-Pending tag, every later poll observes that same
tag, so the state never leaves a terminal state and never moves between
Ready and Failed. -/
theorem single_terminal_transition {Out : Type} (c : Computation Out)
    (id : Nat) :
    (create c id).data.tag = Tag.Pending ∧
    ∀ i j, i ≤ j → observeTag (create c id) i ≠ Tag.Pending →
      observeTag (create c id) j = observeTag (create c id) i :=
  ⟨rfl, fun i j hij h => observeTag_stable (create c id) i j hij h⟩

/-- Claim C1 witness: a computation that suspends once then yields 42; the
second poll observes Ready and the third observes the same tag. -/
theorem single_terminal_transition_witness :
    ((1 : Nat) ≤ 2) ∧
    (observeTag (create (⟨1, Sum.inl 42⟩ : Computation Nat) 0) 1 ≠ Tag.Pending) ∧
    observeTag (create (⟨1, Sum.inl 42⟩ : Computation Nat) 0) 2
      = observeTag (create (⟨1, Sum.inl 42⟩ : Computation Nat) 0) 1 :=
  ⟨by decide, by decide,
    (single_terminal_transition (⟨1, Sum.inl 42⟩ : Computation Nat) 0).2
      1 2 (by decide) (by decide)⟩

/-- Claim C2: once `poll` returns `Ready v` or `Failed e`, every subsequent
poll returns the identical result and leaves the Task's state unchanged:
polling a terminal Task is an idempotent re-read. -/
theorem poll_terminal_idempotent {Out : Type} (t : TaskObj Out) (v : Out)
    (e : FutureError)
    (h : (poll t).2 = PollResult.Ready v ∨ (poll t).2 = PollResult.Failed e) :
    ∀ n, poll (pollIter (poll t).1 n) = ((poll t).1, (poll t).2) := by
  intro n
  have hpeek : (poll t).2 = peek ((poll t).1).data := rfl
  have hterm : ((poll t).1).data.tag ≠ Tag.Pending := by
    rw [← peek_tag, ← hpeek]
    rcases h with h | h <;> rw [h] <;> intro hc <;> exact Tag.noConfusion hc
  rw [pollIter_of_terminal (poll t).1 hterm n, poll_of_terminal (poll t).1 hterm,
    ← hpeek]

/-- Claim C2 witness: an immediately completing computation; after the first
poll returns Ready 42, later polls return the identical pair. -/
theorem poll_terminal_idempotent_witness :
    ((poll (create (⟨0, Sum.inl 42⟩ : Computation Nat) 0)).2
        = PollResult.Ready 42 ∨
      (poll (create (⟨0, Sum.inl 42⟩ : Computation Nat) 0)).2
        = PollResult.Failed ⟨Ty.nat, (0 : Nat)⟩) ∧
    poll (pollIter (poll (create (⟨0, Sum.inl 42⟩ : Computation Nat) 0)).1 3)
      = ((poll (create (⟨0, Sum.inl 42⟩ : Computation Nat) 0)).1,
         (poll (create (⟨0, Sum.inl 42⟩ : Computation Nat) 0)).2) :=
  ⟨Or.inl rfl,
    poll_terminal_idempotent (create (⟨0, Sum.inl 42⟩ : Computation Nat) 0)
      42 ⟨Ty.nat, (0 : Nat)⟩ (Or.inl rfl) 3⟩

/-- Polling a freshly created Task `k ≤ n` times just counts down the
computation's remaining suspensions. -/
theorem pollIter_create_pending {Out : Type} (n : Nat)
    (r : Sum Out FutureError) (id : Nat) :
    ∀ k, k ≤ n → pollIter (create ⟨n, r⟩ id) k = create ⟨n - k, r⟩ id := by
  intro k
  induction k with
  | zero => intro _; rfl
  | succ k ih =>
    intro hk
    have hk1 : k ≤ n := Nat.le_of_succ_le hk
    have hm : n - k = (n - (k + 1)) + 1 := by omega
    show (poll (pollIter (create ⟨n, r⟩ id) k)).1 = _
    rw [ih hk1, hm]
    rfl

/-- Claim C4: a computation that fails with the type-erased value `⟨ty, v⟩`
after `n` suspensions makes `poll` eventually (at the `(n+1)`-th call)
return `Failed` carrying that payload, and downcasting the payload to the
original type `ty` recovers the original value `v`.  The failure is returned
as data through `poll`; `poll` is total, so nothing propagates past the Task
boundary. -/
theorem failure_fidelity {Out : Type} (ty : Ty) (v : ty.denote) (n id : Nat) :
    (poll (pollIter (create (⟨n, Sum.inr ⟨ty, v⟩⟩ : Computation Out) id) n)).2
        = PollResult.Failed ⟨ty, v⟩ ∧
    downcast ty ⟨ty, v⟩ = some v := by
  constructor
  · rw [pollIter_create_pending n (Sum.inr ⟨ty, v⟩) id n (Nat.le_refl n),
      Nat.sub_self]
    rfl
  · simp [downcast]

/-- Claim C6: `create(c)` returns a fresh Task with `ref_count = 1`, state
`Pending(c)` holding exactly the supplied computation, and the given id. -/
theorem create_initial_state {Out : Type} (c : Computation Out) (id : Nat) :
    (create c id).ref_count = 1 ∧
    (create c id).data = FutureData.Pending c ∧
    (create c id).task = id :=
  ⟨rfl, rfl, rfl⟩

/-- Claim C7: at any instant a `FutureData` cell holds exactly one of the
three payloads — the in-progress computation, the output value, or the
captured failure — and never two of them at once. -/
theorem completion_cell_exclusive {F Out : Type} (d : FutureData F Out) :
    ((∃ f, d = FutureData.Pending f) ∨ (∃ o, d = FutureData.Ready o) ∨
      (∃ e, d = FutureData.Error e)) ∧
    ¬((∃ f, d = FutureData.Pending f) ∧ (∃ o, d = FutureData.Ready o)) ∧
    ¬((∃ f, d = FutureData.Pending f) ∧ (∃ e, d = FutureData.Error e)) ∧
    ¬((∃ o, d = FutureData.Ready o) ∧ (∃ e, d = FutureData.Error e)) := by
  cases d <;> simp

/-- Claim C8: `drop_handle` on a Task whose `ref_count` is already zero fails
loudly (a fault, the model of an abort) and never silently decrements. -/
theorem drop_on_zero_faults {Out : Type} (t : TaskObj Out)
    (h : t.ref_count = 0) : drop_handle t = DropOutcome.fault := by
  simp [drop_handle, h]

/-- Claim C8 witness. -/
theorem drop_on_zero_faults_witness :
    ((⟨0, 0, FutureData.Pending ⟨0, Sum.inl 0⟩⟩ : TaskObj Nat).ref_count = 0) ∧
    drop_handle (⟨0, 0, FutureData.Pending ⟨0, Sum.inl 0⟩⟩ : TaskObj Nat)
      = DropOutcome.fault :=
  ⟨rfl, drop_on_zero_faults _ rfl⟩

/-- Claim C9: on a Task with positive `ref_count`, `clone_handle` increments
the count by exactly one and leaves the id, the state tag and the state
payload untouched. -/
theorem clone_increments_only {Out : Type} (t : TaskObj Out)
    (_h : 0 < t.ref_count) :
    (clone_handle t).ref_count = t.ref_count + 1 ∧
    (clone_handle t).task = t.task ∧
    (clone_handle t).data = t.data :=
  ⟨rfl, rfl, rfl⟩

/-- Claim C9 witness. -/
theorem clone_increments_only_witness :
    (0 < (create (⟨0, Sum.inl 7⟩ : Computation Nat) 3).ref_count) ∧
    ((clone_handle (create (⟨0, Sum.inl 7⟩ : Computation Nat) 3)).ref_count
        = (create (⟨0, Sum.inl 7⟩ : Computation Nat) 3).ref_count + 1 ∧
      (clone_handle (create (⟨0, Sum.inl 7⟩ : Computation Nat) 3)).task
        = (create (⟨0, Sum.inl 7⟩ : Computation Nat) 3).task ∧
      (clone_handle (create (⟨0, Sum.inl 7⟩ : Computation Nat) 3)).data
        = (create (⟨0, Sum.inl 7⟩ : Computation Nat) 3).data) :=
  ⟨Nat.one_pos, clone_increments_only _ Nat.one_pos⟩

/-- Unfolding one step of `run`. -/
theorem run_cons {Out : Type} (s : RunState Out) (op : HandleOp)
    (l : List HandleOp) : run s (op :: l) = run (stepOp s op) l := rfl

/-- `drop_handle` on the last handle destroys, releasing the payload. -/
theorem drop_handle_last {Out : Type} (t : TaskObj Out)
    (h : t.ref_count = 1) : drop_handle t = DropOutcome.destroyed t.data := by
  simp [drop_handle, h]

/-- `drop_handle` with at least two outstanding handles just decrements. -/
theorem drop_handle_alive {Out : Type} (t : TaskObj Out)
    (h : 2 ≤ t.ref_count) :
    drop_handle t = DropOutcome.alive { t with ref_count := t.ref_count - 1 } := by
  unfold drop_handle
  rw [if_neg (by omega), if_neg (by omega)]

/-- Invariant for the handle-lifecycle runs: starting from a live Task whose
count is positive, a sequence of operations whose drops exactly exhaust the
count plus the clones, and no prefix of which over-drops, keeps the Task
live with the exact expected count at every proper prefix and destroys it,
releasing the Task's payload, exactly at the last operation. -/
theorem run_balanced_aux {Out : Type} :
    ∀ (ops : List HandleOp) (t : TaskObj Out),
      0 < t.ref_count →
      numDrops ops = t.ref_count + numClones ops →
      (∀ k, k < ops.length →
        numDrops (ops.take k) < t.ref_count + numClones (ops.take k)) →
      (∀ k, k < ops.length →
        run (RunState.live t) (ops.take k)
          = RunState.live
              ⟨t.task,
               t.ref_count + numClones (ops.take k) - numDrops (ops.take k),
               t.data⟩) ∧
      run (RunState.live t) ops = RunState.dead t.data := by
  intro ops
  induction ops with
  | nil =>
    intro t h0 hbal _
    exfalso
    simp [numDrops, numClones] at hbal
    omega
  | cons op ops ih =>
    intro t h0 hbal hpre
    cases op with
    | clone =>
      have hd : numDrops (HandleOp.clone :: ops) = numDrops ops := by
        simp [numDrops]
      have hc : numClones (HandleOp.clone :: ops) = numClones ops + 1 := by
        simp [numClones]
      rw [hd, hc] at hbal
      have hbal2 : numDrops ops = (clone_handle t).ref_count + numClones ops := by
        show numDrops ops = t.ref_count + 1 + numClones ops
        omega
      have hpre2 : ∀ k, k < ops.length →
          numDrops (ops.take k)
            < (clone_handle t).ref_count + numClones (ops.take k) := by
        intro k hk
        have h1 := hpre (k + 1) (by simp; omega)
        rw [List.take_succ_cons] at h1
        simp [numDrops, numClones] at h1
        show numDrops (ops.take k) < t.ref_count + 1 + numClones (ops.take k)
        omega
      obtain ⟨ih1, ih2⟩ := ih (clone_handle t)
        (by show 0 < t.ref_count + 1; omega) hbal2 hpre2
      refine ⟨?_, ?_⟩
      · intro k hk
        cases k with
        | zero => rfl
        | succ k =>
          have hk2 : k < ops.length := by simp at hk; omega
          have e1 : run (RunState.live t)
                ((HandleOp.clone :: ops).take (k + 1))
              = run (RunState.live (clone_handle t)) (ops.take k) := by
            rw [List.take_succ_cons, run_cons]
            rfl
          have hv : (clone_handle t).ref_count + numClones (ops.take k)
                - numDrops (ops.take k)
              = t.ref_count + numClones ((HandleOp.clone :: ops).take (k + 1))
                - numDrops ((HandleOp.clone :: ops).take (k + 1)) := by
            rw [List.take_succ_cons]
            simp [numDrops, numClones, clone_handle]
            omega
          rw [e1, ih1 k hk2, ← hv]
          rfl
      · exact ih2
    | drop =>
      have hd : numDrops (HandleOp.drop :: ops) = numDrops ops + 1 := by
        simp [numDrops]
      have hc : numClones (HandleOp.drop :: ops) = numClones ops := by
        simp [numClones]
      rw [hd, hc] at hbal
      cases ops with
      | nil =>
        have hrc : t.ref_count = 1 := by
          simp [numDrops, numClones] at hbal
          omega
        refine ⟨?_, ?_⟩
        · intro k hk
          have hk1 : k < 1 := by simpa using hk
          have hk0 : k = 0 := by omega
          subst hk0
          rfl
        · show run (RunState.live t) [HandleOp.drop] = RunState.dead t.data
          simp [run, stepOp, drop_handle_last t hrc]
      | cons op2 ops2 =>
        have h2 : 2 ≤ t.ref_count := by
          have h1 := hpre 1 (by simp)
          rw [List.take_succ_cons, List.take_zero] at h1
          simp [numDrops, numClones] at h1
          omega
        have hstep : stepOp (RunState.live t) HandleOp.drop
            = RunState.live (⟨t.task, t.ref_count - 1, t.data⟩ : TaskObj Out) := by
          simp [stepOp, drop_handle_alive t h2]
        have hbal2 : numDrops (op2 :: ops2)
            = (⟨t.task, t.ref_count - 1, t.data⟩ : TaskObj Out).ref_count
              + numClones (op2 :: ops2) := by
          show numDrops (op2 :: ops2) = t.ref_count - 1 + numClones (op2 :: ops2)
          omega
        have hpre2 : ∀ k, k < (op2 :: ops2).length →
            numDrops ((op2 :: ops2).take k)
              < (⟨t.task, t.ref_count - 1, t.data⟩ : TaskObj Out).ref_count
                + numClones ((op2 :: ops2).take k) := by
          intro k hk
          have h1 := hpre (k + 1) (by simp at hk ⊢; omega)
          rw [List.take_succ_cons] at h1
          simp [numDrops, numClones] at h1
          show numDrops ((op2 :: ops2).take k)
            < t.ref_count - 1 + numClones ((op2 :: ops2).take k)
          omega
        obtain ⟨ih1, ih2⟩ := ih ⟨t.task, t.ref_count - 1, t.data⟩
          (by show 0 < t.ref_count - 1; omega) hbal2 hpre2
        refine ⟨?_, ?_⟩
        · intro k hk
          cases k with
          | zero => rfl
          | succ k =>
            have hk2 : k < (op2 :: ops2).length := by simp at hk ⊢; omega
            have e1 : run (RunState.live t)
                  ((HandleOp.drop :: op2 :: ops2).take (k + 1))
                = run (RunState.live
                      (⟨t.task, t.ref_count - 1, t.data⟩ : TaskObj Out))
                    ((op2 :: ops2).take k) := by
              rw [List.take_succ_cons, run_cons, hstep]
            have hv : (⟨t.task, t.ref_count - 1, t.data⟩ : TaskObj Out).ref_count
                  + numClones ((op2 :: ops2).take k)
                  - numDrops ((op2 :: ops2).take k)
                = t.ref_count
                  + numClones ((HandleOp.drop :: op2 :: ops2).take (k + 1))
                  - numDrops ((HandleOp.drop :: op2 :: ops2).take (k + 1)) := by
              rw [List.take_succ_cons]
              simp [numDrops, numClones]
              omega
            rw [e1, ih1 k hk2, ← hv]
        · show run (RunState.live t) (HandleOp.drop :: op2 :: ops2)
            = RunState.dead t.data
          rw [run_cons, hstep]
          exact ih2

/-- Claim C3: for any balanced sequence of `clone_handle` / `drop_handle`
calls on a created Task (drops = clones + 1 for the original handle, and no
prefix drops more handles than exist), the Task stays live with the exact
expected positive count at every proper prefix — so the count never
underflows and no earlier drop destroys — and the final drop destroys the
Task exactly once, releasing its payload. -/
theorem refcount_balance {Out : Type} (c : Computation Out) (id : Nat)
    (ops : List HandleOp)
    (hbal : numDrops ops = 1 + numClones ops)
    (hpre : ∀ k, k < ops.length →
      numDrops (ops.take k) < 1 + numClones (ops.take k)) :
    (∀ k, k < ops.length →
      run (RunState.live (create c id)) (ops.take k)
        = RunState.live
            ⟨id, 1 + numClones (ops.take k) - numDrops (ops.take k),
             FutureData.Pending c⟩) ∧
    run (RunState.live (create c id)) ops
      = RunState.dead (FutureData.Pending c) :=
  run_balanced_aux ops (create c id) Nat.one_pos hbal hpre

/-- Claim C3 witness: one clone then two drops (Scenario C shape): the run
stays live through every proper prefix and destroys exactly at the end. -/
theorem refcount_balance_witness :
    (numDrops [HandleOp.clone, HandleOp.drop, HandleOp.drop]
        = 1 + numClones [HandleOp.clone, HandleOp.drop, HandleOp.drop]) ∧
    (∀ k, k < ([HandleOp.clone, HandleOp.drop, HandleOp.drop] : List HandleOp).length →
      numDrops (([HandleOp.clone, HandleOp.drop, HandleOp.drop] : List HandleOp).take k)
        < 1 + numClones (([HandleOp.clone, HandleOp.drop, HandleOp.drop] : List HandleOp).take k)) ∧
    run (RunState.live (create (⟨0, Sum.inl 0⟩ : Computation Nat) 0))
        [HandleOp.clone, HandleOp.drop, HandleOp.drop]
      = RunState.dead (FutureData.Pending ⟨0, Sum.inl 0⟩) :=
  ⟨by decide, by decide,
    (refcount_balance (⟨0, Sum.inl 0⟩ : Computation Nat) 0
      [HandleOp.clone, HandleOp.drop, HandleOp.drop]
      (by decide) (by decide)).2⟩

/-- Claim C5: dropping the last handle of a still-Pending Task (cancellation)
releases the Completion Cell together with the held computation: the payload
handed to the destructor is exactly `Pending c`. -/
theorem cancellation_destroys_computation {Out : Type} (t : TaskObj Out)
    (c : Computation Out) (h1 : t.ref_count = 1)
    (h2 : t.data = FutureData.Pending c) :
    drop_handle t = DropOutcome.destroyed (FutureData.Pending c) := by
  simp [drop_handle, h1, h2]

/-- Claim C5 witness: a never-completing computation is cancelled by the sole
handle's drop and its payload is destroyed. -/
theorem cancellation_destroys_computation_witness :
    ((create (⟨5, Sum.inl 0⟩ : Computation Nat) 0).ref_count = 1) ∧
    ((create (⟨5, Sum.inl 0⟩ : Computation Nat) 0).data
        = FutureData.Pending ⟨5, Sum.inl 0⟩) ∧
    drop_handle (create (⟨5, Sum.inl 0⟩ : Computation Nat) 0)
        = DropOutcome.destroyed (FutureData.Pending ⟨5, Sum.inl 0⟩) :=
  ⟨rfl, rfl, cancellation_destroys_computation _ _ rfl rfl⟩

end ZapFut
